import Mathlib

/-!
Shallow embedding of the CoinJoin-recognizer (`src/Coinjoin.py`).

The embedding keeps the Python function names. Logging (`log_debug`) and the
CSV side channel of `has_repeated_output_value` do not influence any returned
boolean, so they are omitted; the `vin`, `transaction_hash`, `debug`,
`log_file` and `top10_file` parameters that feed only those side channels are
dropped as well.

Python's `math.log2` raises `ValueError` on `0`; `has_sufficient_outputs`
calls it unguarded, so it is embedded as an `Option Bool`, with `none`
standing for the raised exception, and `is_coinjoin_like` propagates that
exception. For `n ≥ 1`, `int(math.log2(n))` truncates the (nonnegative) real
logarithm toward zero, i.e. equals `Nat.log 2 n`. Python's float division in
`len(vout) < len(vin) / 2` is exact here and is embedded as the integer
comparison `2 * len(vout) < len(vin)`.
-/

namespace Coinjoin

/-- One entry of a transaction's `inputs` list: its associated addresses
(`input_data.get("addresses", [])`) and optional numeric value
(`input_data.get("value")`). -/
structure Input where
  addresses : List String
  value : Option Int
deriving DecidableEq, Repr

/-- One entry of a transaction's `outputs` list: optional value, addresses,
and the optional `"type"` script tag used by the OP_RETURN check. -/
structure Output where
  value : Option Int
  addresses : List String
  type : Option String
deriving DecidableEq, Repr

/-- The slice of a raw transaction document that `is_coinjoin_like` reads:
`tx.get("inputs", [])` and `tx.get("outputs", [])`. The `hash` field is used
only for CSV reporting and is omitted. -/
structure Tx where
  inputs : List Input
  outputs : List Output
deriving DecidableEq, Repr

/-- Fuel-driven computation of the truncated base-2 logarithm; the fuel makes
the recursion structural so that the kernel can evaluate it on concrete
records. `ilog2_eq_log` below certifies agreement with `Nat.log 2`. -/
def ilog2Aux (fuel n : Nat) : Nat :=
  match fuel with
  | 0 => 0
  | fuel + 1 => if n < 2 then 0 else ilog2Aux fuel (n / 2) + 1

/-- `int(math.log2(n))` for `n ≥ 1`: the real logarithm is nonnegative there,
so `int` truncation is the floor, i.e. `Nat.log 2 n` (see `ilog2_eq_log`). -/
def ilog2 (n : Nat) : Nat :=
  ilog2Aux n n

/-- Rule 1 (`has_minimum_inputs`): fails iff `len(vin) < 3`. -/
def has_minimum_inputs (vin : List Input) : Bool :=
  if vin.length < 3 then false else true

/-- `has_sufficient_outputs`: evaluates `int(math.log2(len(vout))) + 1 < 5`
first; on `len(vout) = 0` Python raises `ValueError`, embedded as `none`.
Otherwise the small-output branch requires `len(vout) ≥ len(vin)` and the
large-output branch requires `len(vout) ≥ len(vin) / 2`. -/
def has_sufficient_outputs (vin : List Input) (vout : List Output) : Option Bool :=
  if vout.length = 0 then none
  else if ilog2 vout.length + 1 < 5 then
    if vout.length < vin.length then some false else some true
  else
    if 2 * vout.length < vin.length then some false else some true

/-- The list `[out.get("value") for out in vout if out.get("value") is not None]`. -/
def outputValues (vout : List Output) : List Int :=
  vout.filterMap Output.value

/-- `has_repeated_output_value`: returns `False` when `len(vout) < 3`;
otherwise computes `target = max(min(int(math.log2(len(vout))), 5), 3)` and
returns `True` iff the filtered list of `(value, count)` pairs with
`count >= target` is nonempty, i.e. iff some output value occurs at least
`target` times. The sort, the `[:10]` truncation and the CSV write do not
affect the returned boolean. -/
def has_repeated_output_value (vout : List Output) : Bool :=
  if vout.length < 3 then false
  else
    let target := max (min (ilog2 vout.length) 5) 3
    (outputValues vout).any (fun v => decide (target ≤ (outputValues vout).count v))

/-- The traversal order of a loop that walks a list of chunks and the items of
each chunk, checking each item against a growing `seen` set and returning
`False` at the first repeat: `true` iff no item repeats and none is in the
initial `seen`. -/
def scanUnique {α : Type} [DecidableEq α] (seen : List α) : List α → Bool
  | [] => true
  | a :: rest => if a ∈ seen then false else scanUnique (a :: seen) rest

/-- The flattened output address stream visited by `has_unique_output_addresses`. -/
def outputAddresses (vout : List Output) : List String :=
  vout.flatMap Output.addresses

/-- `has_unique_output_addresses` (headed "Rule 4" in its docstring): walks
every address of every output against a `seen_addresses` set, failing at the
first address seen twice. -/
def has_unique_output_addresses (vout : List Output) : Bool :=
  scanUnique [] (outputAddresses vout)

/-- Rule 5 (`has_reasonable_output_count`): fails iff
`len(vout) > len(vin) * 2`. -/
def has_reasonable_output_count (vin : List Input) (vout : List Output) : Bool :=
  if vout.length > vin.length * 2 then false else true

/-- Rule 6 (`has_op_return_output`): fails iff some output has
`value == 0` and `type == "nonstandard"`. -/
def has_op_return_output (vout : List Output) : Bool :=
  if vout.any (fun o => decide (o.value = some 0 ∧ o.type = some "nonstandard"))
  then false else true

/-- The flattened input address stream of `has_not_only_one_input_addresses`. -/
def inputAddresses (vin : List Input) : List String :=
  vin.flatMap Input.addresses

/-- Rule 7 (`has_not_only_one_input_addresses`): fails iff the set of all
input addresses has at most one element (`len(set(...)) <= 1`). -/
def has_not_only_one_input_addresses (vin : List Input) : Bool :=
  if (inputAddresses vin).dedup.length ≤ 1 then false else true

/-- The `(value, address)` pairs one input contributes: none when its
`value is None`, otherwise one pair per address. -/
def inputPairs (i : Input) : List (Int × String) :=
  match i.value with
  | none => []
  | some v => i.addresses.map (fun a => (v, a))

/-- The `(value, address)` pairs visited by
`has_unique_input_addresses_by_value`. The Python per-value dictionary of
address sets records exactly which of these pairs have been seen. -/
def addrValuePairs (vin : List Input) : List (Int × String) :=
  vin.flatMap inputPairs

/-- Updated rule 7 (`has_unique_input_addresses_by_value`): fails iff, among
inputs holding the same (non-`None`) value, some address occurs twice. -/
def has_unique_input_addresses_by_value (vin : List Input) : Bool :=
  scanUnique [] (addrValuePairs vin)

/-- `is_coinjoin_like`: the eight checks in source order, each early-returning
`False`; `none` propagates the `ValueError` that `has_sufficient_outputs`
raises on an empty output list. -/
def is_coinjoin_like (tx : Tx) : Option Bool :=
  if has_minimum_inputs tx.inputs = false then some false
  else if has_not_only_one_input_addresses tx.inputs = false then some false
  else
    match has_sufficient_outputs tx.inputs tx.outputs with
    | none => none
    | some s =>
      if s = false then some false
      else if has_reasonable_output_count tx.inputs tx.outputs = false then some false
      else if has_op_return_output tx.outputs = false then some false
      else if has_unique_output_addresses tx.outputs = false then some false
      else if has_unique_input_addresses_by_value tx.inputs = false then some false
      else if has_repeated_output_value tx.outputs = false then some false
      else some true

/-- Evaluating every check of `is_coinjoin_like` on the record and conjoining
the resulting booleans (an exception raised by any check still propagates). -/
def rulesConj (tx : Tx) : Option Bool :=
  match has_sufficient_outputs tx.inputs tx.outputs with
  | none => none
  | some s =>
    some (has_minimum_inputs tx.inputs
      && has_not_only_one_input_addresses tx.inputs
      && s
      && has_reasonable_output_count tx.inputs tx.outputs
      && has_op_return_output tx.outputs
      && has_unique_output_addresses tx.outputs
      && has_unique_input_addresses_by_value tx.inputs
      && has_repeated_output_value tx.outputs)

/-- The spec's §8 scenario: 5 inputs with 5 distinct addresses, 6 outputs in
which value 1000 appears 3 times and 500, 700, 900 once each, all output
addresses distinct, no non-standard output. -/
def txScenario : Tx :=
  { inputs :=
      [ { addresses := ["a1"], value := some 10 }
      , { addresses := ["a2"], value := some 11 }
      , { addresses := ["a3"], value := some 12 }
      , { addresses := ["a4"], value := some 13 }
      , { addresses := ["a5"], value := some 14 } ]
  , outputs :=
      [ { value := some 1000, addresses := ["b1"], type := some "pubkeyhash" }
      , { value := some 1000, addresses := ["b2"], type := some "pubkeyhash" }
      , { value := some 1000, addresses := ["b3"], type := some "pubkeyhash" }
      , { value := some 500, addresses := ["b4"], type := some "pubkeyhash" }
      , { value := some 700, addresses := ["b5"], type := some "pubkeyhash" }
      , { value := some 900, addresses := ["b6"], type := some "pubkeyhash" } ] }

/-- An 11-element output list: past the ceiling `2 * 5` for `txScenario`. -/
def voutBig : List Output :=
  List.replicate 11 { value := some 1, addresses := [], type := none }

/-- Three inputs with three distinct addresses and an empty output list:
rules 1 and 7 pass and `has_sufficient_outputs` is then reached with
`len(vout) = 0`. -/
def txZeroOutputs : Tx :=
  { inputs :=
      [ { addresses := ["a1"], value := some 10 }
      , { addresses := ["a2"], value := some 11 }
      , { addresses := ["a3"], value := some 12 } ]
  , outputs := [] }

/-- The record with no inputs and no outputs. -/
def txEmpty : Tx :=
  { inputs := [], outputs := [] }

/-- A record with two inputs. -/
def txTwoInputs : Tx :=
  { inputs :=
      [ { addresses := ["w1"], value := some 1 }
      , { addresses := ["w2"], value := some 2 } ]
  , outputs := [] }

/-- A record with a single, plain output. -/
def txOneOut : Tx :=
  { inputs := [], outputs := [{ value := some 1, addresses := [], type := none }] }

/-- A record with one zero-valued output tagged `"nonstandard"`. -/
def txOpRet : Tx :=
  { inputs := [{ addresses := ["p1"], value := some 1 }]
  , outputs := [{ value := some 0, addresses := [], type := some "nonstandard" }] }

/-- Five inputs that all resolve to the single address `"s"`. -/
def txOneAddr : Tx :=
  { inputs :=
      [ { addresses := ["s"], value := some 1 }
      , { addresses := ["s"], value := some 2 }
      , { addresses := ["s"], value := some 3 }
      , { addresses := ["s"], value := some 4 }
      , { addresses := ["s"], value := some 5 } ]
  , outputs := txScenario.outputs }

/-- Two outputs with different values that share the address `"dup"`. -/
def txDupOutAddr : Tx :=
  { inputs := []
  , outputs :=
      [ { value := some 10, addresses := ["dup"], type := none }
      , { value := some 20, addresses := ["dup"], type := none } ] }

/-- Two inputs share value 10 and address `"a1"`, a third input carries the
distinct address `"a2"`; the output list is empty. -/
def txDupPair : Tx :=
  { inputs :=
      [ { addresses := ["a1"], value := some 10 }
      , { addresses := ["a1"], value := some 10 }
      , { addresses := ["a2"], value := some 11 } ]
  , outputs := [] }

/-- `txDupPair` with one plain output added. -/
def txDupPairOut : Tx :=
  { inputs := txDupPair.inputs
  , outputs := [{ value := some 1, addresses := [], type := none }] }

theorem ilog2Aux_eq_log (fuel n : Nat) (h : n ≤ fuel) : ilog2Aux fuel n = Nat.log 2 n := by
  induction fuel generalizing n with
  | zero =>
    interval_cases n
    simp [ilog2Aux]
  | succ fuel ih =>
    rw [ilog2Aux]
    by_cases h2 : n < 2
    · simp [h2, Nat.log_of_lt h2]
    · push_neg at h2
      have hdiv : n / 2 ≤ fuel := by
        have := Nat.div_lt_self (by omega : 0 < n) (by omega : 1 < 2)
        omega
      simp only [if_neg (by omega : ¬ n < 2)]
      rw [ih _ hdiv, Nat.log_of_one_lt_of_le (by omega) h2]

theorem ilog2_eq_log (n : Nat) : ilog2 n = Nat.log 2 n :=
  ilog2Aux_eq_log n n le_rfl

theorem scanUnique_eq_true {α : Type} [DecidableEq α] (seen l : List α) :
    scanUnique seen l = true ↔ l.Nodup ∧ ∀ a ∈ l, a ∉ seen := by
  induction l generalizing seen with
  | nil => simp [scanUnique]
  | cons a rest ih =>
    by_cases ha : a ∈ seen
    · simp [scanUnique, ha]
    · rw [scanUnique, if_neg ha, ih]
      constructor
      · rintro ⟨hnd, hall⟩
        have hna : a ∉ rest := fun hmem => (hall a hmem) (List.mem_cons_self a seen)
        refine ⟨List.nodup_cons.mpr ⟨hna, hnd⟩, fun b hb => ?_⟩
        rcases List.mem_cons.mp hb with rfl | hbr
        · exact ha
        · exact fun hbs => hall b hbr (List.mem_cons_of_mem a hbs)
      · rintro ⟨hnd, hall⟩
        rcases List.nodup_cons.mp hnd with ⟨hna, hnd2⟩
        refine ⟨hnd2, fun b hb hbc => ?_⟩
        rcases List.mem_cons.mp hbc with rfl | hbs
        · exact hna hb
        · exact hall b (List.mem_cons_of_mem a hb) hbs

theorem scanUnique_nil_eq_true {α : Type} [DecidableEq α] (l : List α) :
    scanUnique ([] : List α) l = true ↔ l.Nodup := by
  simp [scanUnique_eq_true]

theorem has_sufficient_outputs_isSome (vin : List Input) (vout : List Output)
    (h : vout ≠ []) : ∃ s, has_sufficient_outputs vin vout = some s := by
  unfold has_sufficient_outputs
  rw [if_neg (by simpa using h)]
  split
  · split <;> exact ⟨_, rfl⟩
  · split <;> exact ⟨_, rfl⟩

theorem is_coinjoin_like_eq_some (tx : Tx) (s : Bool)
    (hs : has_sufficient_outputs tx.inputs tx.outputs = some s) :
    is_coinjoin_like tx =
      some (has_minimum_inputs tx.inputs
        && has_not_only_one_input_addresses tx.inputs
        && s
        && has_reasonable_output_count tx.inputs tx.outputs
        && has_op_return_output tx.outputs
        && has_unique_output_addresses tx.outputs
        && has_unique_input_addresses_by_value tx.inputs
        && has_repeated_output_value tx.outputs) := by
  unfold is_coinjoin_like
  rw [hs]
  cases h1 : has_minimum_inputs tx.inputs <;>
    cases h2 : has_not_only_one_input_addresses tx.inputs <;>
      cases s <;>
        cases h4 : has_reasonable_output_count tx.inputs tx.outputs <;>
          cases h5 : has_op_return_output tx.outputs <;>
            cases h6 : has_unique_output_addresses tx.outputs <;>
              cases h7 : has_unique_input_addresses_by_value tx.inputs <;>
                cases h8 : has_repeated_output_value tx.outputs <;>
                  simp

theorem not_nodup_flatMap {α β : Type} [DecidableEq β] (l : List α) (f : α → List β)
    (i j : Fin l.length) (hij : i ≠ j) (b : β)
    (hbi : b ∈ f (l.get i)) (hbj : b ∈ f (l.get j)) : ¬ (l.flatMap f).Nodup := by
  intro hnd
  rw [List.nodup_flatMap] at hnd
  have hpw := hnd.2
  rw [List.pairwise_iff_get] at hpw
  rcases lt_trichotomy i j with h | h | h
  · exact hpw i j h hbi hbj
  · exact hij h
  · exact hpw j i h hbj hbi

theorem has_unique_output_addresses_eq_false (vout : List Output)
    (i j : Fin vout.length) (hij : i ≠ j) (a : String)
    (hai : a ∈ (vout.get i).addresses) (haj : a ∈ (vout.get j).addresses) :
    has_unique_output_addresses vout = false := by
  have hnd : ¬ (outputAddresses vout).Nodup := by
    unfold outputAddresses
    exact not_nodup_flatMap vout Output.addresses i j hij a hai haj
  unfold has_unique_output_addresses
  exact Bool.eq_false_iff.mpr fun h => hnd ((scanUnique_nil_eq_true _).mp h)

theorem has_unique_input_addresses_by_value_eq_false (vin : List Input)
    (i j : Fin vin.length) (hij : i ≠ j) (v : Int) (a : String)
    (hvi : (vin.get i).value = some v) (hvj : (vin.get j).value = some v)
    (hai : a ∈ (vin.get i).addresses) (haj : a ∈ (vin.get j).addresses) :
    has_unique_input_addresses_by_value vin = false := by
  have hnd : ¬ (addrValuePairs vin).Nodup := by
    unfold addrValuePairs
    apply not_nodup_flatMap vin inputPairs i j hij (v, a)
    · unfold inputPairs
      rw [hvi]
      simpa using hai
    · unfold inputPairs
      rw [hvj]
      simpa using haj
  unfold has_unique_input_addresses_by_value
  exact Bool.eq_false_iff.mpr fun h => hnd ((scanUnique_nil_eq_true _).mp h)

/-- C1: contrary to the spec's contract, a record with zero outputs is not
short-circuited to a false verdict: with 3 inputs carrying distinct
addresses, rules 1 and 7 pass and `has_sufficient_outputs` evaluates
`math.log2(0)`, which raises `ValueError` (embedded as `none`) instead of
returning the verdict `false`. -/
theorem coinjoin_zero_outputs_error :
    txZeroOutputs.outputs = [] ∧ 3 ≤ txZeroOutputs.inputs.length ∧
      is_coinjoin_like txZeroOutputs = none := by
  decide

/-- C2: any record with fewer than 3 inputs gets the verdict `false`,
whatever its outputs: rule 1 is evaluated first and returns before any
arithmetic on the output list. -/
theorem coinjoin_few_inputs_false (tx : Tx) (h : tx.inputs.length < 3) :
    is_coinjoin_like tx = some false := by
  have h1 : has_minimum_inputs tx.inputs = false := by
    unfold has_minimum_inputs
    rw [if_pos h]
  unfold is_coinjoin_like
  rw [if_pos h1]

/-- Witness for C2 at a record with 2 inputs (and an empty output list). -/
theorem coinjoin_few_inputs_false_witness :
    txTwoInputs.inputs.length < 3 ∧ is_coinjoin_like txTwoInputs = some false :=
  ⟨by decide, coinjoin_few_inputs_false txTwoInputs (by decide)⟩

/-- C3 counterexample: on the record with no inputs and no outputs the
short-circuiting classifier returns `false` (rule 1 fails first), but
evaluating every predicate on the record does not yield that boolean —
`has_sufficient_outputs` raises on the empty output list — so the full
conjunction of the rule predicates differs from the classifier's verdict. -/
theorem rulesConj_disagrees_counterexample :
    is_coinjoin_like txEmpty = some false ∧ rulesConj txEmpty = none ∧
      rulesConj txEmpty ≠ is_coinjoin_like txEmpty := by
  decide

/-- C3 (amended): on every record with at least one output — where every
rule predicate is defined — evaluating all predicates and conjoining the
booleans (in any order; `&&` is commutative and associative) agrees with the
short-circuiting classifier. -/
theorem rulesConj_eq_is_coinjoin_like (tx : Tx) (h : tx.outputs ≠ []) :
    rulesConj tx = is_coinjoin_like tx := by
  obtain ⟨s, hs⟩ := has_sufficient_outputs_isSome tx.inputs tx.outputs h
  rw [is_coinjoin_like_eq_some tx s hs]
  unfold rulesConj
  rw [hs]

/-- Witness for the amended C3 at a record with one output. -/
theorem rulesConj_eq_is_coinjoin_like_witness :
    txOneOut.outputs ≠ [] ∧ rulesConj txOneOut = is_coinjoin_like txOneOut :=
  ⟨by decide, rulesConj_eq_is_coinjoin_like txOneOut (by decide)⟩

/-- C4: `has_repeated_output_value` passes exactly when some output value
occurs at least `max(min(floor(log2(|outputs|)), 5), 3)` times among the
non-`None` output values; in particular it fails whenever every value occurs
at most `target - 1` times and passes whenever some value occurs exactly
`target` times. -/
theorem has_repeated_output_value_iff (vout : List Output) :
    has_repeated_output_value vout = true ↔
      ∃ v ∈ outputValues vout,
        max (min (Nat.log 2 vout.length) 5) 3 ≤ (outputValues vout).count v := by
  unfold has_repeated_output_value
  simp only [← ilog2_eq_log]
  by_cases h3 : vout.length < 3
  · rw [if_pos h3]
    simp only [Bool.false_eq_true, false_iff, not_exists]
    rintro v ⟨hv, hcnt⟩
    have hc1 : (outputValues vout).count v ≤ (outputValues vout).length :=
      List.count_le_length v (outputValues vout)
    have hc2 : (outputValues vout).length ≤ vout.length :=
      List.length_filterMap_le Output.value vout
    have hm : 3 ≤ max (min (ilog2 vout.length) 5) 3 := le_max_right _ _
    omega
  · rw [if_neg h3]
    simp [List.any_eq_true]

/-- C5: on the spec's scenario record — 5 inputs with 5 distinct addresses,
6 outputs where value 1000 appears 3 times and 500, 700, 900 once each, no
non-standard output — the classifier's verdict is `true`. -/
theorem coinjoin_scenario_verdict_true :
    txScenario.inputs.length = 5 ∧
      (inputAddresses txScenario.inputs).dedup.length = 5 ∧
      txScenario.outputs.length = 6 ∧
      (outputValues txScenario.outputs).count 1000 = 3 ∧
      (outputValues txScenario.outputs).count 500 = 1 ∧
      (outputValues txScenario.outputs).count 700 = 1 ∧
      (outputValues txScenario.outputs).count 900 = 1 ∧
      has_op_return_output txScenario.outputs = true ∧
      is_coinjoin_like txScenario = some true := by
  decide

/-- C6: the output-count ceiling rule fails exactly when
`|outputs| > 2 * |inputs|` (equality is accepted), and replacing the output
list of a record with a passing verdict by one longer than `2 * |inputs|`
turns the verdict to `false`. -/
theorem output_count_ceiling_rule (tx : Tx) (vout2 : List Output)
    (hpass : is_coinjoin_like tx = some true)
    (hgrow : 2 * tx.inputs.length < vout2.length) :
    (∀ (vin : List Input) (vout : List Output),
        has_reasonable_output_count vin vout = false ↔ 2 * vin.length < vout.length)
      ∧ is_coinjoin_like { inputs := tx.inputs, outputs := vout2 } = some false := by
  constructor
  · intro vin vout
    unfold has_reasonable_output_count
    split <;> rename_i h <;> simp <;> omega
  · have h1 : has_minimum_inputs tx.inputs = true := by
      by_contra hc
      rw [Bool.not_eq_true] at hc
      unfold is_coinjoin_like at hpass
      rw [if_pos hc] at hpass
      simp at hpass
    have hne : vout2 ≠ [] := List.ne_nil_of_length_pos (by omega)
    obtain ⟨s, hs⟩ := has_sufficient_outputs_isSome tx.inputs vout2 hne
    have hceil : has_reasonable_output_count tx.inputs vout2 = false := by
      unfold has_reasonable_output_count
      rw [if_pos (by omega)]
    rw [is_coinjoin_like_eq_some ⟨tx.inputs, vout2⟩ s hs]
    simp [hceil]

/-- Witness for C6: `txScenario` passes, and growing its output list to the
11-element `voutBig` (past the ceiling `2 * 5 = 10`) flips the verdict. -/
theorem output_count_ceiling_rule_witness :
    is_coinjoin_like txScenario = some true ∧
      2 * txScenario.inputs.length < voutBig.length ∧
      is_coinjoin_like { inputs := txScenario.inputs, outputs := voutBig } = some false :=
  ⟨by decide, by decide,
    (output_count_ceiling_rule txScenario voutBig (by decide) (by decide)).2⟩

/-- C7: any record containing an output with value 0 and script type
`"nonstandard"` gets the verdict `false`: every rule evaluated before
`has_op_return_output` either fails (verdict `false`) or passes, the output
list is nonempty so no `ValueError` intervenes, and `has_op_return_output`
then fails. -/
theorem coinjoin_op_return_false (tx : Tx) (o : Output) (ho : o ∈ tx.outputs)
    (hv : o.value = some 0) (ht : o.type = some "nonstandard") :
    is_coinjoin_like tx = some false := by
  have hne : tx.outputs ≠ [] := by
    intro he
    rw [he] at ho
    cases ho
  obtain ⟨s, hs⟩ := has_sufficient_outputs_isSome tx.inputs tx.outputs hne
  rw [is_coinjoin_like_eq_some tx s hs]
  have hop : has_op_return_output tx.outputs = false := by
    unfold has_op_return_output
    rw [if_pos ?hc]
    case hc =>
      rw [List.any_eq_true]
      exact ⟨o, ho, by simp [hv, ht]⟩
  simp [hop]

/-- Witness for C7 at a record whose single output has value 0 and type
`"nonstandard"`. -/
theorem coinjoin_op_return_false_witness :
    (∃ o ∈ txOpRet.outputs, o.value = some 0 ∧ o.type = some "nonstandard") ∧
      is_coinjoin_like txOpRet = some false :=
  ⟨by decide,
    coinjoin_op_return_false txOpRet
      { value := some 0, addresses := [], type := some "nonstandard" }
      (by decide) (by decide) (by decide)⟩

/-- C8: any record whose inputs collectively resolve to at most one unique
address gets the verdict `false`: rule 1 either fails outright, or
`has_not_only_one_input_addresses` — evaluated second, before any output
arithmetic — fails. -/
theorem coinjoin_single_input_address_false (tx : Tx)
    (h : (inputAddresses tx.inputs).dedup.length ≤ 1) :
    is_coinjoin_like tx = some false := by
  have hdiv : has_not_only_one_input_addresses tx.inputs = false := by
    unfold has_not_only_one_input_addresses
    rw [if_pos h]
  unfold is_coinjoin_like
  by_cases h1 : has_minimum_inputs tx.inputs = false
  · rw [if_pos h1]
  · rw [if_neg h1, if_pos hdiv]

/-- Witness for C8 at a record whose 5 inputs all carry the address `"s"`. -/
theorem coinjoin_single_input_address_false_witness :
    (inputAddresses txOneAddr.inputs).dedup.length ≤ 1 ∧
      is_coinjoin_like txOneAddr = some false :=
  ⟨by decide, coinjoin_single_input_address_false txOneAddr (by decide)⟩

/-- C9: if any address occurs in the address sets of two different outputs —
whatever their values — the verdict is `false`: `has_unique_output_addresses`
tracks one global seen-set across all outputs, so the second occurrence
fails it, and every rule evaluated before it either passes or itself yields
the verdict `false`. -/
theorem coinjoin_dup_output_address_false (tx : Tx)
    (i j : Fin tx.outputs.length) (hij : i ≠ j) (a : String)
    (hai : a ∈ (tx.outputs.get i).addresses) (haj : a ∈ (tx.outputs.get j).addresses) :
    is_coinjoin_like tx = some false := by
  have hpos : 0 < tx.outputs.length := Nat.lt_of_le_of_lt (Nat.zero_le _) i.isLt
  obtain ⟨s, hs⟩ :=
    has_sufficient_outputs_isSome tx.inputs tx.outputs (List.ne_nil_of_length_pos hpos)
  rw [is_coinjoin_like_eq_some tx s hs]
  have hu := has_unique_output_addresses_eq_false tx.outputs i j hij a hai haj
  simp [hu]

/-- Witness for C9: two outputs with different values (10 and 20) sharing
the address `"dup"`. -/
theorem coinjoin_dup_output_address_false_witness :
    "dup" ∈ (txDupOutAddr.outputs.get ⟨0, by decide⟩).addresses ∧
      "dup" ∈ (txDupOutAddr.outputs.get ⟨1, by decide⟩).addresses ∧
      is_coinjoin_like txDupOutAddr = some false :=
  ⟨by decide, by decide,
    coinjoin_dup_output_address_false txDupOutAddr ⟨0, by decide⟩ ⟨1, by decide⟩
      (by decide) "dup" (by decide) (by decide)⟩

/-- C10 counterexample: `txDupPair` meets the claim's premise — inputs 0 and
1 share value 10 and address `"a1"`, and the inputs collectively hold two
distinct addresses — yet the classifier does not return the verdict `false`:
its empty output list makes `has_sufficient_outputs` raise (`none`). -/
theorem coinjoin_dup_input_value_address_counterexample :
    (txDupPair.inputs.get ⟨0, by decide⟩).value = some 10 ∧
      (txDupPair.inputs.get ⟨1, by decide⟩).value = some 10 ∧
      "a1" ∈ (txDupPair.inputs.get ⟨0, by decide⟩).addresses ∧
      "a1" ∈ (txDupPair.inputs.get ⟨1, by decide⟩).addresses ∧
      2 ≤ (inputAddresses txDupPair.inputs).dedup.length ∧
      is_coinjoin_like txDupPair ≠ some false ∧
      is_coinjoin_like txDupPair = none := by
  decide

/-- C10 (amended): on records with at least one output, two inputs sharing
a value and an address force the verdict `false` even when the inputs
collectively hold two or more distinct addresses — the per-value uniqueness
check applies in addition to the single-unique-address diversity check. -/
theorem coinjoin_dup_input_value_address_false (tx : Tx) (hout : tx.outputs ≠ [])
    (i j : Fin tx.inputs.length) (hij : i ≠ j) (v : Int) (a : String)
    (hvi : (tx.inputs.get i).value = some v) (hvj : (tx.inputs.get j).value = some v)
    (hai : a ∈ (tx.inputs.get i).addresses) (haj : a ∈ (tx.inputs.get j).addresses) :
    is_coinjoin_like tx = some false := by
  obtain ⟨s, hs⟩ := has_sufficient_outputs_isSome tx.inputs tx.outputs hout
  rw [is_coinjoin_like_eq_some tx s hs]
  have hu := has_unique_input_addresses_by_value_eq_false tx.inputs i j hij v a hvi hvj hai haj
  simp [hu]

/-- Witness for the amended C10: `txDupPairOut` has one output, inputs 0 and
1 share value 10 and address `"a1"`, its inputs hold two distinct addresses,
and the verdict is `false`. -/
theorem coinjoin_dup_input_value_address_false_witness :
    txDupPairOut.outputs ≠ [] ∧
      2 ≤ (inputAddresses txDupPairOut.inputs).dedup.length ∧
      is_coinjoin_like txDupPairOut = some false :=
  ⟨by decide, by decide,
    coinjoin_dup_input_value_address_false txDupPairOut (by decide)
      ⟨0, by decide⟩ ⟨1, by decide⟩ (by decide) 10 "a1"
      (by decide) (by decide) (by decide) (by decide)⟩

end Coinjoin
